import Mathlib

/-!
# Image Metadata Gateway — shallow embedding and verification

A shallow embedding in Lean 4 of `src/server/app.js` (an Express backend
brokering image uploads to S3 and indexing metadata in DynamoDB), together
with proofs of the specified properties of its four request handlers:
the upload-URL issuer, the metadata recorder, the catalog search, and the
object remover.

External-service effects are made explicit: each handler is a pure function
of its (parsed) request, the current time / caller address, the relevant
store state, and flags describing whether each external call succeeds; it
returns the HTTP response, the updated store state, and the ordered trace
of external calls it issued.
-/

set_option linter.all false

namespace ImageVault

/-! ## JavaScript string primitives

The handlers use `String.prototype.trim`, `toLowerCase`, `includes` and
`replace(/\s+/g, '-')`.  We model them on the character list underlying a
Lean `String`, with `Char.isWhitespace` as the whitespace class. -/

/-- `l` with leading and trailing whitespace characters removed
(the character-list semantics of JavaScript `String.prototype.trim`). -/
def trimChars (l : List Char) : List Char :=
  ((l.dropWhile Char.isWhitespace).reverse.dropWhile Char.isWhitespace).reverse

/-- JavaScript `s.trim()`. -/
def jsTrim (s : String) : String :=
  ⟨trimChars s.data⟩

/-- JavaScript `s.toLowerCase()` (basic-latin case mapping). -/
def jsToLower (s : String) : String :=
  ⟨s.data.map Char.toLower⟩

/-- JavaScript `s.includes(sub)`: `sub` occurs contiguously inside `s`. -/
def jsIncludes (s sub : String) : Bool :=
  decide (sub.data <:+: s.data)

/-- The character-list semantics of `replace(/\s+/g, '-')`: every maximal
run of whitespace characters is replaced by a single hyphen.  The boolean
argument records whether the previously consumed character was part of a
whitespace run that has already emitted its hyphen. -/
def collapseWsAux : Bool → List Char → List Char
  | _, [] => []
  | prevWs, c :: cs =>
    if c.isWhitespace then
      (if prevWs then [] else ['-']) ++ collapseWsAux true cs
    else
      c :: collapseWsAux false cs

/-- JavaScript `fileName.replace(/\s+/g, '-')` as used at app.js line 54. -/
def sanitizeFileName (s : String) : String :=
  ⟨collapseWsAux false s.data⟩

/-! ## Data model -/

/-- The single entity of the system: the flat DynamoDB item written by
`POST /api/save-metadata` (app.js lines 88–94). -/
structure ImageRecord where
  imageId : String
  caption : String
  tags : List String
  uploadTime : Nat
  uploaderId : String
deriving DecidableEq

/-- Environment-derived configuration consumed by the handlers. -/
structure Config where
  bucket : String
  region : String
  tableName : String
deriving DecidableEq

/-- One entry of the `errors.array()` payload returned on validation
failure. -/
structure FieldError where
  path : String
  msg : String
deriving DecidableEq

/-- An untyped JavaScript value as found in a parsed JSON request body;
enough constructors to distinguish "missing", "empty string" and "wrong
type" for the validated fields. -/
inductive JsVal where
  | undefined
  | null
  | str (s : String)
  | num (n : Int)
  | bool (b : Bool)
deriving DecidableEq

/-- Is the value a string?  (`isString()` of the validation chain.) -/
def JsVal.isStr : JsVal → Bool
  | .str _ => true
  | _ => false

/-- The string carried by a `JsVal` known to be a string (the handlers
only apply this after validation has passed). -/
def JsVal.asString : JsVal → String
  | .str s => s
  | _ => ""

/-- Modelled from the spec: the express-validator chain
`body(f).isString().notEmpty()` used on every required field, producing
one structured error per failed check ("missing/wrong-typed required
field → HTTP 400 with a structured list of field errors").  The library
itself is an external dependency, not part of `src/`. -/
def reqStringErrors (field : String) (v : JsVal) : List FieldError :=
  (if v.isStr then [] else [⟨field, "Invalid value"⟩]) ++
  (match v with
   | .str s => if s = "" then [⟨field, "Invalid value"⟩] else []
   | _ => [⟨field, "Invalid value"⟩])

/-- A required field passes validation exactly when it is a non-empty
string. -/
def isValidReqString (v : JsVal) : Bool :=
  match v with
  | .str s => !s.isEmpty
  | _ => false

/-- A condition attached to an S3 presigned POST policy.  The handler only
ever attaches `contentLengthRange`; `contentTypeEq` exists in the model so
that its absence is expressible. -/
inductive PostCondition where
  | contentLengthRange (lo hi : Nat)
  | contentTypeEq (value : String)
deriving DecidableEq

/-- One external-service call issued by a handler, in issue order. -/
inductive ExtCall where
  | s3CreatePresignedPost (bucket key : String)
      (conditions : List PostCondition) (expires : Nat)
  | dynamoPutItem (tableName : String) (item : ImageRecord)
  | dynamoScan (tableName : String)
  | s3DeleteObject (bucket key : String)
  | dynamoDeleteItem (tableName imageId : String)
deriving DecidableEq

/-- The JSON responses the handlers produce, tagged by HTTP status. -/
inductive Response (α : Type) where
  | ok (body : α)
  | badRequest (errors : List FieldError)
  | serverError (msg : String)
deriving DecidableEq

/-- The HTTP status code of a response. -/
def Response.status : Response α → Nat
  | .ok _ => 200
  | .badRequest _ => 400
  | .serverError _ => 500

/-! ## External store state

Modelled from the spec: the metadata table service "accepts put/scan/delete
of flat records" keyed by `imageId` (an unconditional, last-writer-wins
put), and the object storage service accepts presigned uploads/deletes by
key.  Both are managed cloud services outside `src/`. -/

/-- The metadata table: a key-value map from `imageId` to the stored
record. -/
def Table : Type := String → Option ImageRecord

/-- DynamoDB `PutItem`: unconditional overwrite at the item's key. -/
def dynamoPut (t : Table) (item : ImageRecord) : Table :=
  fun k => if k = item.imageId then some item else t k

/-- DynamoDB `DeleteItem`: unconditional removal at the key. -/
def dynamoDelete (t : Table) (imageId : String) : Table :=
  fun k => if k = imageId then none else t k

/-- The object store: which keys currently hold an object. -/
def S3State : Type := String → Bool

/-- S3 `DeleteObject`: unconditional removal at the key. -/
def s3Delete (s : S3State) (key : String) : S3State :=
  fun k => if k = key then false else s k

/-- Combined external state touched by the delete handler. -/
structure World where
  s3Objects : S3State
  table : Table

/-! ## Handler 1: `POST /api/generate-presigned-url` (app.js lines 43–73) -/

/-- What `createPresignedPost` returns to the handler when it succeeds. -/
structure PresignedPostResult where
  url : String
  fields : List (String × String)
deriving DecidableEq

/-- The success payload `{url, fields, key}`. -/
structure GenUrlOk where
  url : String
  fields : List (String × String)
  key : String
deriving DecidableEq

/-- The presigned-URL handler.  `now` is `Date.now()` at the request;
`s3Result` is `none` when `createPresignedPost` throws.  Returns the
response and the trace of external calls issued. -/
def generatePresignedUrlHandler (cfg : Config) (fileName fileType : JsVal)
    (now : Nat) (s3Result : Option PresignedPostResult) :
    Response GenUrlOk × List ExtCall :=
  let errors := reqStringErrors "fileName" fileName ++
                reqStringErrors "fileType" fileType
  if errors.isEmpty then
    let key := "images/" ++ Nat.repr now ++ "-" ++
               sanitizeFileName fileName.asString
    let call := ExtCall.s3CreatePresignedPost cfg.bucket key
                  [.contentLengthRange 0 10485760] 300
    match s3Result with
    | some r => (.ok ⟨r.url, r.fields, key⟩, [call])
    | none => (.serverError "Failed to generate upload URL", [call])
  else
    (.badRequest errors, [])

/-! ## Handler 2: `POST /api/save-metadata` (app.js lines 76–107) -/

/-- The parsed request body of `save-metadata`.  `key` is kept untyped
because it is validated; `caption` and `tags` are optional (`none` models
an absent property).  `extra` models any further properties of the JSON
body, which the handler never reads. -/
structure SaveBody where
  key : JsVal
  caption : Option String
  tags : Option (List String)
  extra : List (String × String)

/-- The item built at app.js lines 88–94: `caption || ''` defaults an
absent caption to the empty string, `tags || []` defaults absent tags to
the empty sequence, `uploadTime` is `Date.now()`, `uploaderId` is
`req.ip`. -/
def buildMetadataItem (key : String) (caption : Option String)
    (tags : Option (List String)) (now : Nat) (ip : String) : ImageRecord :=
  { imageId := key
    caption := caption.getD ""
    tags := tags.getD []
    uploadTime := now
    uploaderId := ip }

/-- The save-metadata handler.  `dynOk` is false when the `PutItem` call
throws.  Returns the response, the table after the request, and the trace
of external calls issued. -/
def saveMetadataHandler (cfg : Config) (b : SaveBody) (now : Nat)
    (ip : String) (t : Table) (dynOk : Bool) :
    Response String × Table × List ExtCall :=
  let errors := reqStringErrors "key" b.key
  if errors.isEmpty then
    let item := buildMetadataItem b.key.asString b.caption b.tags now ip
    let call := ExtCall.dynamoPutItem cfg.tableName item
    if dynOk then (.ok "Metadata saved", dynamoPut t item, [call])
    else (.serverError "Failed to save metadata", t, [call])
  else
    (.badRequest errors, t, [])

/-! ## Handler 3: `GET /api/search` (app.js lines 112–173) -/

/-- A search result object: `{key, caption, tags, uploadTime,
presignedGetUrl}` and nothing else — in particular no `uploaderId` and no
credentials. -/
structure SearchResult where
  key : String
  caption : String
  tags : List String
  uploadTime : Nat
  presignedGetUrl : String
deriving DecidableEq

/-- The decoration applied to every returned record in both branches
(app.js lines 130–136 and 159–165): the stored fields plus the
deterministic interpolated URL. -/
def toSearchResult (bucket region : String) (it : ImageRecord) : SearchResult :=
  { key := it.imageId
    caption := it.caption
    tags := it.tags
    uploadTime := it.uploadTime
    presignedGetUrl :=
      "https://" ++ bucket ++ ".s3." ++ region ++ ".amazonaws.com/" ++
      it.imageId }

/-- The filter predicate of app.js lines 145–155.  JavaScript truthiness:
`item.caption && …` short-circuits on an empty caption, and `tag && …`
short-circuits on an empty tag; `item.tags` is always an array here and an
array is always truthy, so that guard is vacuous in the model. -/
def matchesSearchTerm (searchTerm : String) (it : ImageRecord) : Bool :=
  (!it.caption.isEmpty && jsIncludes (jsToLower it.caption) searchTerm) ||
  it.tags.any fun tg => !tg.isEmpty && jsIncludes (jsToLower tg) searchTerm

/-- The search predicate as the spec states it, with no truthiness guards:
the term is a substring of the lower-cased caption or of some lower-cased
tag. -/
def specSubstringMatch (term : String) (it : ImageRecord) : Bool :=
  jsIncludes (jsToLower it.caption) term ||
  it.tags.any fun tg => jsIncludes (jsToLower tg) term

/-- The in-process search over the scanned items (app.js lines 128–167):
absent or blank `q` returns every record decorated; otherwise the items
are filtered by `matchesSearchTerm` on `q.toLowerCase().trim()` and then
decorated. -/
def searchImages (bucket region : String) :
    Option String → List ImageRecord → List SearchResult
  | none, items => items.map (toSearchResult bucket region)
  | some qs, items =>
    if jsTrim qs = "" then items.map (toSearchResult bucket region)
    else
      (items.filter
        (matchesSearchTerm (jsTrim (jsToLower qs)))).map
        (toSearchResult bucket region)

/-- The search handler: one unbounded `Scan`, then in-process filtering.
`scanResult` is `none` when the scan throws. -/
def searchHandler (cfg : Config) (q : Option String)
    (scanResult : Option (List ImageRecord)) :
    Response (List SearchResult) × List ExtCall :=
  match scanResult with
  | none => (.serverError "Search failed", [.dynamoScan cfg.tableName])
  | some items =>
    (.ok (searchImages cfg.bucket cfg.region q items),
     [.dynamoScan cfg.tableName])

/-! ## Handler 4: `POST /api/delete-image` (app.js lines 179–204) -/

/-- The delete handler: S3 `DeleteObject` first, DynamoDB `DeleteItem`
second, both inside one try/catch.  `s3Ok` / `dynOk` are false when the
respective call throws; a throwing call leaves its store unchanged and, if
it is the first, prevents the second from being issued at all. -/
def deleteImageHandler (cfg : Config) (keyV : JsVal) (w : World)
    (s3Ok dynOk : Bool) : Response String × World × List ExtCall :=
  let errors := reqStringErrors "key" keyV
  if errors.isEmpty then
    let key := keyV.asString
    if s3Ok then
      let w1 : World := { w with s3Objects := s3Delete w.s3Objects key }
      if dynOk then
        (.ok "Image deleted",
         { w1 with table := dynamoDelete w1.table key },
         [.s3DeleteObject cfg.bucket key,
          .dynamoDeleteItem cfg.tableName key])
      else
        (.serverError "Failed to delete image", w1,
         [.s3DeleteObject cfg.bucket key,
          .dynamoDeleteItem cfg.tableName key])
    else
      (.serverError "Failed to delete image", w,
       [.s3DeleteObject cfg.bucket key])
  else
    (.badRequest errors, w, [])

/-! ## Helper lemmas -/

/-- Basic-latin lowercasing maps whitespace to whitespace and
non-whitespace to non-whitespace. -/
theorem isWhitespace_toLower (c : Char) :
    (Char.toLower c).isWhitespace = c.isWhitespace := by
  unfold Char.toLower
  by_cases h : c.toNat ≥ 65 ∧ c.toNat ≤ 90
  · rw [if_pos h]
    have key : ∀ n, n < 123 → 97 ≤ n → (Char.ofNat n).isWhitespace = false := by
      decide
    have h1 : (Char.ofNat (c.toNat + 32)).isWhitespace = false :=
      key _ (by omega) (by omega)
    have h2 : c.isWhitespace = false := by
      rcases hc : c.isWhitespace with _ | _
      · rfl
      · exfalso
        simp only [Char.isWhitespace, Bool.or_eq_true, decide_eq_true_eq] at hc
        rcases hc with ((rfl | rfl) | rfl) | rfl <;> exact absurd h.1 (by decide)
    rw [h1, h2]
  · rw [if_neg h]

/-- Trimming yields the empty list exactly when every character is
whitespace. -/
theorem trimChars_eq_nil_iff (l : List Char) :
    trimChars l = [] ↔ ∀ c ∈ l, c.isWhitespace = true := by
  unfold trimChars
  rw [List.reverse_eq_nil_iff, List.dropWhile_eq_nil_iff]
  constructor
  · intro h c hc
    have hsplit := List.takeWhile_append_dropWhile
      (p := Char.isWhitespace) (l := l)
    rw [← hsplit] at hc
    rcases List.mem_append.mp hc with h1 | h2
    · exact List.mem_takeWhile_imp h1
    · exact h _ (List.mem_reverse.mpr h2)
  · intro h c hc
    exact h c ((List.dropWhile_sublist _).subset (List.mem_reverse.mp hc))

/-- `jsTrim s` is empty exactly when `s` is blank. -/
theorem jsTrim_eq_empty_iff (s : String) :
    jsTrim s = "" ↔ ∀ c ∈ s.data, c.isWhitespace = true := by
  rw [String.ext_iff]
  exact trimChars_eq_nil_iff s.data

/-- Lowercasing does not change blankness. -/
theorem jsTrim_toLower_eq_empty_iff (s : String) :
    jsTrim (jsToLower s) = "" ↔ jsTrim s = "" := by
  rw [jsTrim_eq_empty_iff, jsTrim_eq_empty_iff]
  constructor
  · intro h c hc
    rw [← isWhitespace_toLower]
    exact h _ (List.mem_map_of_mem _ hc)
  · intro h c hc
    rcases List.mem_map.mp hc with ⟨c0, hc0, rfl⟩
    rw [isWhitespace_toLower]
    exact h _ hc0

/-- A non-empty pattern is never a substring of the empty string. -/
theorem jsIncludes_empty_left {sub : String} (h : sub ≠ "") :
    jsIncludes "" sub = false := by
  unfold jsIncludes
  simp only [decide_eq_false_iff_not]
  intro hinf
  exact h (String.ext (List.eq_nil_of_infix_nil hinf))

/-- For a non-empty search term, the JavaScript truthiness guard
`s && s.toLowerCase().includes(term)` is equivalent to the bare
containment test. -/
theorem bool_guard_includes (term : String) (h : term ≠ "") (s : String) :
    (!s.isEmpty && jsIncludes (jsToLower s) term) =
      jsIncludes (jsToLower s) term := by
  cases hs : s.isEmpty
  · simp
  · have hs' : s = "" := (String.isEmpty_iff s).mp hs
    subst hs'
    rw [show jsToLower "" = "" from rfl, jsIncludes_empty_left h]
    simp

/-- For a non-empty search term the code's filter predicate agrees with the
spec's guardless substring predicate. -/
theorem matchesSearchTerm_eq_spec {term : String} (h : term ≠ "")
    (it : ImageRecord) :
    matchesSearchTerm term it = specSubstringMatch term it := by
  unfold matchesSearchTerm specSubstringMatch
  rw [bool_guard_includes term h it.caption]
  have htags : (fun tg : String => !tg.isEmpty && jsIncludes (jsToLower tg) term) =
      (fun tg : String => jsIncludes (jsToLower tg) term) :=
    funext (bool_guard_includes term h)
  rw [htags]

/-- Required-field validation passes exactly on non-empty strings. -/
theorem reqStringErrors_eq_nil_iff (f : String) (v : JsVal) :
    reqStringErrors f v = [] ↔ isValidReqString v = true := by
  cases v with
  | str s =>
    by_cases hs : s = ""
    · subst hs
      simp [reqStringErrors, isValidReqString, JsVal.isStr]
      decide
    · have hemp : s.isEmpty = false := by
        cases h2 : s.isEmpty
        · rfl
        · exact absurd ((String.isEmpty_iff s).mp h2) hs
      simp [reqStringErrors, isValidReqString, JsVal.isStr, hs, hemp]
  | undefined => simp [reqStringErrors, isValidReqString, JsVal.isStr]
  | null => simp [reqStringErrors, isValidReqString, JsVal.isStr]
  | num n => simp [reqStringErrors, isValidReqString, JsVal.isStr]
  | bool b => simp [reqStringErrors, isValidReqString, JsVal.isStr]

/-- Every character accumulated by the base-10 digit printer is a decimal
digit, provided the accumulator already consists of digits. -/
theorem toDigitsCore_all_digits (fuel : Nat) :
    ∀ (n : Nat) (ds : List Char), (∀ c ∈ ds, c.isDigit = true) →
      ∀ c ∈ Nat.toDigitsCore 10 fuel n ds, c.isDigit = true := by
  induction fuel with
  | zero =>
    intro n ds hds
    exact hds
  | succ fuel ih =>
    intro n ds hds c hc
    have hd : (Nat.digitChar (n % 10)).isDigit = true := by
      have h10 : n % 10 < 10 := Nat.mod_lt _ (by decide)
      have hall : ∀ m, m < 10 → (Nat.digitChar m).isDigit = true := by decide
      exact hall _ h10
    unfold Nat.toDigitsCore at hc
    by_cases hz : n / 10 = 0
    · rw [if_pos hz] at hc
      rcases List.mem_cons.mp hc with rfl | h
      · exact hd
      · exact hds _ h
    · rw [if_neg hz] at hc
      refine ih (n / 10) (Nat.digitChar (n % 10) :: ds) ?_ c hc
      intro c' hc'
      rcases List.mem_cons.mp hc' with rfl | h
      · exact hd
      · exact hds _ h

/-- The base-10 digit printer never returns the empty list when it has
fuel or a non-empty accumulator. -/
theorem toDigitsCore_ne_nil (fuel : Nat) :
    ∀ (n : Nat) (ds : List Char), fuel ≠ 0 ∨ ds ≠ [] →
      Nat.toDigitsCore 10 fuel n ds ≠ [] := by
  induction fuel with
  | zero =>
    intro n ds h
    rcases h with h | h
    · exact absurd rfl h
    · exact h
  | succ fuel ih =>
    intro n ds h
    unfold Nat.toDigitsCore
    by_cases hz : n / 10 = 0
    · rw [if_pos hz]
      exact List.cons_ne_nil _ _
    · rw [if_neg hz]
      exact ih _ _ (Or.inr (List.cons_ne_nil _ _))

/-- The decimal representation of a natural number is a non-empty string
of digit characters. -/
theorem repr_digits (n : Nat) :
    (Nat.repr n).data ≠ [] ∧ ∀ c ∈ (Nat.repr n).data, c.isDigit = true := by
  constructor
  · exact toDigitsCore_ne_nil (n + 1) n [] (Or.inl (Nat.succ_ne_zero n))
  · exact toDigitsCore_all_digits (n + 1) n [] (by intro c hc; cases hc)

/-! ## Handler reduction lemmas (shared by the claim theorems) -/

/-- `generate-presigned-url` on a valid body: the key is built once, the
single policy condition is the 0–10485760 content-length range with a 300
second expiry, and the response carries the same key on success. -/
theorem generatePresignedUrl_valid (cfg : Config) (fileName fileType : String)
    (hfn : fileName ≠ "") (hft : fileType ≠ "") (now : Nat)
    (s3Result : Option PresignedPostResult) :
    generatePresignedUrlHandler cfg (.str fileName) (.str fileType) now
        s3Result =
      ((match s3Result with
        | some r => .ok ⟨r.url, r.fields,
            "images/" ++ Nat.repr now ++ "-" ++ sanitizeFileName fileName⟩
        | none => .serverError "Failed to generate upload URL"),
       [.s3CreatePresignedPost cfg.bucket
          ("images/" ++ Nat.repr now ++ "-" ++ sanitizeFileName fileName)
          [.contentLengthRange 0 10485760] 300]) := by
  have h1 : reqStringErrors "fileName" (.str fileName) = [] :=
    (reqStringErrors_eq_nil_iff _ _).mpr (by
      simp [isValidReqString]
      cases h : fileName.isEmpty
      · rfl
      · exact absurd ((String.isEmpty_iff fileName).mp h) hfn)
  have h2 : reqStringErrors "fileType" (.str fileType) = [] :=
    (reqStringErrors_eq_nil_iff _ _).mpr (by
      simp [isValidReqString]
      cases h : fileType.isEmpty
      · rfl
      · exact absurd ((String.isEmpty_iff fileType).mp h) hft)
  unfold generatePresignedUrlHandler
  rw [h1, h2]
  cases s3Result <;> rfl

/-- `save-metadata` on a valid key: the item is built from the body, the
put is issued, and the table is overwritten exactly when the put
succeeds. -/
theorem saveMetadataHandler_valid (cfg : Config) (k : String) (hk : k ≠ "")
    (c : Option String) (tg : Option (List String))
    (e : List (String × String)) (now : Nat) (ip : String) (t : Table)
    (dynOk : Bool) :
    saveMetadataHandler cfg ⟨.str k, c, tg, e⟩ now ip t dynOk =
      ((if dynOk then .ok "Metadata saved"
        else .serverError "Failed to save metadata"),
       (if dynOk then dynamoPut t (buildMetadataItem k c tg now ip) else t),
       [.dynamoPutItem cfg.tableName (buildMetadataItem k c tg now ip)]) := by
  have h1 : reqStringErrors "key" (.str k) = [] :=
    (reqStringErrors_eq_nil_iff _ _).mpr (by
      simp [isValidReqString]
      cases h : k.isEmpty
      · rfl
      · exact absurd ((String.isEmpty_iff k).mp h) hk)
  unfold saveMetadataHandler
  rw [h1]
  cases dynOk <;> rfl

/-- `delete-image` on a valid key: S3 delete first, DynamoDB delete
second, no compensation on partial failure. -/
theorem deleteImageHandler_valid (cfg : Config) (k : String) (hk : k ≠ "")
    (w : World) (s3Ok dynOk : Bool) :
    deleteImageHandler cfg (.str k) w s3Ok dynOk =
      if s3Ok then
        (if dynOk then
          (.ok "Image deleted",
           { s3Objects := s3Delete w.s3Objects k,
             table := dynamoDelete w.table k },
           [.s3DeleteObject cfg.bucket k, .dynamoDeleteItem cfg.tableName k])
         else
          (.serverError "Failed to delete image",
           { w with s3Objects := s3Delete w.s3Objects k },
           [.s3DeleteObject cfg.bucket k, .dynamoDeleteItem cfg.tableName k]))
      else
        (.serverError "Failed to delete image", w,
         [.s3DeleteObject cfg.bucket k]) := by
  have h1 : reqStringErrors "key" (.str k) = [] :=
    (reqStringErrors_eq_nil_iff _ _).mpr (by
      simp [isValidReqString]
      cases h : k.isEmpty
      · rfl
      · exact absurd ((String.isEmpty_iff k).mp h) hk)
  unfold deleteImageHandler
  rw [h1]
  cases s3Ok <;> cases dynOk <;> rfl

/-- Validation failure on a required field yields a non-empty error
list. -/
theorem reqStringErrors_ne_nil {v : JsVal} (h : isValidReqString v = false)
    (f : String) : reqStringErrors f v ≠ [] := by
  intro hnil
  rw [(reqStringErrors_eq_nil_iff f v).mp hnil] at h
  cases h

/-! ## Claim theorems -/

/-- C1: for every table state and every query string, the catalog search
with absent or blank `q` returns one result object per stored record
(every stored record), and with a non-blank `q` it returns exactly those
records for which the lower-cased, trimmed `q` is a substring of the
lower-cased caption or a substring of some lower-cased tag, and no
others. -/
theorem search_returns_all_or_exact_matches (bucket region : String)
    (items : List ImageRecord) (q qb : String)
    (hq : jsTrim q ≠ "") (hqb : jsTrim qb = "") :
    searchImages bucket region none items =
      items.map (toSearchResult bucket region) ∧
    searchImages bucket region (some qb) items =
      items.map (toSearchResult bucket region) ∧
    searchImages bucket region (some q) items =
      (items.filter (specSubstringMatch (jsTrim (jsToLower q)))).map
        (toSearchResult bucket region) := by
  refine ⟨rfl, ?_, ?_⟩
  · simp only [searchImages]
    rw [if_pos hqb]
  · simp only [searchImages]
    rw [if_neg hq]
    have hterm : jsTrim (jsToLower q) ≠ "" := fun hcontra =>
      hq ((jsTrim_toLower_eq_empty_iff q).mp hcontra)
    rw [List.filter_congr (fun it _ => matchesSearchTerm_eq_spec hterm it)]

/-- C7: every record returned by the catalog search, in both the
all-records branch and the filtered branch, is exactly the stored
`key`/`caption`/`tags`/`uploadTime` decorated with the deterministic
interpolated URL `https://<bucket>.s3.<region>.amazonaws.com/<imageId>`;
the `SearchResult` type has no further field, so no result carries
credentials or the stored `uploaderId`. -/
theorem search_result_shape (bucket region : String) (q : Option String)
    (items : List ImageRecord) (res : SearchResult)
    (hres : res ∈ searchImages bucket region q items) :
    ∃ it, it ∈ items ∧
      res = { key := it.imageId, caption := it.caption, tags := it.tags,
              uploadTime := it.uploadTime,
              presignedGetUrl := "https://" ++ bucket ++ ".s3." ++ region ++
                ".amazonaws.com/" ++ it.imageId } := by
  rcases q with _ | qs
  · simp only [searchImages] at hres
    rcases List.mem_map.mp hres with ⟨it, hit, rfl⟩
    exact ⟨it, hit, rfl⟩
  · simp only [searchImages] at hres
    by_cases hq : jsTrim qs = ""
    · rw [if_pos hq] at hres
      rcases List.mem_map.mp hres with ⟨it, hit, rfl⟩
      exact ⟨it, hit, rfl⟩
    · rw [if_neg hq] at hres
      rcases List.mem_map.mp hres with ⟨it, hit, rfl⟩
      exact ⟨it, (List.mem_filter.mp hit).1, rfl⟩

/-- C9: for every table state and every query, the list returned by the
catalog search with `q` is a subsequence of the list returned with an
absent query over the same items — filtering removes records but never
reorders, never duplicates, and shapes each surviving record
identically. -/
theorem search_filtered_is_sublist (bucket region : String) (q : String)
    (items : List ImageRecord) :
    List.Sublist (searchImages bucket region (some q) items)
      (searchImages bucket region none items) := by
  simp only [searchImages]
  by_cases hq : jsTrim q = ""
  · rw [if_pos hq]
  · rw [if_neg hq]
    exact List.Sublist.map (toSearchResult bucket region)
      (List.filter_sublist items)

/-- C2: for every valid non-empty `fileName` and every issuance time, the
generated key equals `"images/"` followed by the decimal millisecond
timestamp, a hyphen, and the file name with whitespace runs replaced by
hyphens; the timestamp prints as a non-empty string of decimal digits, and
in particular `"cat pic.png"` sanitizes to `"cat-pic.png"`, so the key
matches `images/\d+-cat-pic.png`. -/
theorem generated_key_format (cfg : Config) (fileName fileType : String)
    (hfn : fileName ≠ "") (hft : fileType ≠ "") (now : Nat)
    (s3Result : Option PresignedPostResult) :
    (∃ conds expires,
      (generatePresignedUrlHandler cfg (.str fileName) (.str fileType) now
          s3Result).2 =
        [.s3CreatePresignedPost cfg.bucket
          ("images/" ++ Nat.repr now ++ "-" ++ sanitizeFileName fileName)
          conds expires]) ∧
    (∀ r, s3Result = some r →
      (generatePresignedUrlHandler cfg (.str fileName) (.str fileType) now
          s3Result).1 =
        .ok ⟨r.url, r.fields,
          "images/" ++ Nat.repr now ++ "-" ++ sanitizeFileName fileName⟩) ∧
    sanitizeFileName "cat pic.png" = "cat-pic.png" ∧
    (Nat.repr now).data ≠ [] ∧
    (∀ c ∈ (Nat.repr now).data, c.isDigit = true) := by
  have hred := generatePresignedUrl_valid cfg fileName fileType hfn hft now
    s3Result
  refine ⟨⟨[.contentLengthRange 0 10485760], 300, ?_⟩, ?_, by decide,
    (repr_digits now).1, (repr_digits now).2⟩
  · rw [hred]
  · intro r hr
    subst hr
    rw [hred]

/-- C8: for every valid `generate-presigned-url` request, the upload
authorization requested from the object store carries exactly one
condition — a content-length range of 0 to 10485760 bytes — carries no
content-type condition even though `fileType` was supplied, and expires
after 300 seconds. -/
theorem presigned_post_single_constraint (cfg : Config)
    (fileName fileType : String) (hfn : fileName ≠ "") (hft : fileType ≠ "")
    (now : Nat) (s3Result : Option PresignedPostResult) :
    ∃ key conds,
      (generatePresignedUrlHandler cfg (.str fileName) (.str fileType) now
          s3Result).2 =
        [.s3CreatePresignedPost cfg.bucket key conds 300] ∧
      conds = [.contentLengthRange 0 10485760] ∧
      ∀ v, PostCondition.contentTypeEq v ∉ conds := by
  refine ⟨"images/" ++ Nat.repr now ++ "-" ++ sanitizeFileName fileName,
    [.contentLengthRange 0 10485760], ?_, rfl, ?_⟩
  · rw [generatePresignedUrl_valid cfg fileName fileType hfn hft now s3Result]
  · intro v hv
    rcases List.mem_singleton.mp hv with h
    cases h

/-- C3: performing the metadata write twice with the same key but
different bodies leaves the table mapping that key to exactly the record
of the second write (an unconditional overwrite, no merge), and leaves
every other key untouched. -/
theorem save_metadata_overwrite (cfg : Config) (k : String) (hk : k ≠ "")
    (c1 c2 : Option String) (tg1 tg2 : Option (List String))
    (e1 e2 : List (String × String)) (n1 n2 : Nat) (ip1 ip2 : String)
    (t : Table) (k' : String) (hk' : k' ≠ k) :
    (saveMetadataHandler cfg ⟨.str k, c2, tg2, e2⟩ n2 ip2
        ((saveMetadataHandler cfg ⟨.str k, c1, tg1, e1⟩ n1 ip1 t true).2.1)
        true).2.1 k =
      some ⟨k, c2.getD "", tg2.getD [], n2, ip2⟩ ∧
    (saveMetadataHandler cfg ⟨.str k, c2, tg2, e2⟩ n2 ip2
        ((saveMetadataHandler cfg ⟨.str k, c1, tg1, e1⟩ n1 ip1 t true).2.1)
        true).2.1 k' =
      t k' := by
  rw [saveMetadataHandler_valid cfg k hk c1 tg1 e1 n1 ip1 t true,
    saveMetadataHandler_valid cfg k hk c2 tg2 e2 n2 ip2 _ true]
  constructor
  · show (if k = k then _ else _) = _
    rw [if_pos rfl]
    rfl
  · show (if k' = k then _ else if k' = k then _ else t k') = t k'
    rw [if_neg hk', if_neg hk']

/-- C6: for every valid metadata request with key `k`, the stored record
has `imageId = k`, caption equal to the supplied caption or `""` when it
is missing, tags equal to the supplied sequence or `[]` when missing,
`uploadTime` equal to the server time at the write, and `uploaderId`
equal to the caller's observed network address; other keys are
untouched. -/
theorem save_metadata_record_fields (cfg : Config) (b : SaveBody)
    (s : String) (hb : b.key = .str s) (hs : s ≠ "") (now : Nat)
    (ip : String) (t : Table) (k' : String) (hk' : k' ≠ s) :
    ∃ r : ImageRecord,
      (saveMetadataHandler cfg b now ip t true).2.1 s = some r ∧
      r.imageId = s ∧
      (b.caption = none → r.caption = "") ∧
      (∀ c, b.caption = some c → r.caption = c) ∧
      (b.tags = none → r.tags = []) ∧
      (∀ tgs, b.tags = some tgs → r.tags = tgs) ∧
      r.uploadTime = now ∧ r.uploaderId = ip ∧
      (saveMetadataHandler cfg b now ip t true).2.1 k' = t k' := by
  obtain ⟨kv, c, tg, e⟩ := b
  simp only at hb
  subst hb
  rw [saveMetadataHandler_valid cfg s hs c tg e now ip t true]
  refine ⟨buildMetadataItem s c tg now ip, ?_, rfl, ?_, ?_, ?_, ?_, rfl, rfl,
    ?_⟩
  · show (if s = s then _ else _) = _
    rw [if_pos rfl]
  · intro hc
    simp only at hc
    subst hc
    rfl
  · intro c0 hc
    simp only at hc
    subst hc
    rfl
  · intro htg
    simp only at htg
    subst htg
    rfl
  · intro tgs htg
    simp only at htg
    subst htg
    rfl
  · show (if k' = s then _ else t k') = t k'
    rw [if_neg hk']

/-- C5: for every valid delete request, the object-store delete is issued
first and the metadata-table delete second; the response is HTTP 500
whenever either delete raises; and when the first delete succeeds and the
second fails, the deletion is not compensated — the object at the key is
gone while the metadata table is left exactly as it was. -/
theorem delete_order_and_no_rollback (cfg : Config) (k : String)
    (hk : k ≠ "") (w : World) (s3Ok dynOk : Bool) (k' : String) :
    ((deleteImageHandler cfg (.str k) w s3Ok dynOk).2.2 =
      if s3Ok then
        [.s3DeleteObject cfg.bucket k, .dynamoDeleteItem cfg.tableName k]
      else [.s3DeleteObject cfg.bucket k]) ∧
    ((s3Ok && dynOk) = false →
      (deleteImageHandler cfg (.str k) w s3Ok dynOk).1.status = 500) ∧
    (s3Ok = true → dynOk = false →
      (deleteImageHandler cfg (.str k) w s3Ok dynOk).2.1.s3Objects k =
        false ∧
      (deleteImageHandler cfg (.str k) w s3Ok dynOk).2.1.table k' =
        w.table k') := by
  rw [deleteImageHandler_valid cfg k hk w s3Ok dynOk]
  cases s3Ok <;> cases dynOk
  · exact ⟨rfl, fun _ => rfl, fun h _ => absurd h (by decide)⟩
  · exact ⟨rfl, fun _ => rfl, fun h _ => absurd h (by decide)⟩
  · refine ⟨rfl, fun _ => rfl, fun _ _ => ⟨?_, rfl⟩⟩
    show (if k = k then false else w.s3Objects k) = false
    rw [if_pos rfl]
  · exact ⟨rfl, fun h => absurd h (by decide),
      fun _ h => absurd h (by decide)⟩

/-- C4: for every request to a validated endpoint in which a required
field is missing, empty, or of the wrong type, the response is HTTP 400
carrying a non-empty errors array, no external call is issued, and the
external state is unchanged. -/
theorem validation_failure_behavior (cfg : Config)
    (fileName fileType : JsVal) (now : Nat)
    (s3Result : Option PresignedPostResult) (b : SaveBody) (nowS : Nat)
    (ip : String) (t : Table) (dynOk : Bool) (keyD : JsVal) (w : World)
    (s3OkD dynOkD : Bool)
    (hgen : isValidReqString fileName = false ∨
      isValidReqString fileType = false)
    (hsave : isValidReqString b.key = false)
    (hdel : isValidReqString keyD = false) :
    (∃ errs, errs ≠ [] ∧ (Response.badRequest errs : Response GenUrlOk).status = 400 ∧
      generatePresignedUrlHandler cfg fileName fileType now s3Result =
        (.badRequest errs, [])) ∧
    (∃ errs, errs ≠ [] ∧
      saveMetadataHandler cfg b nowS ip t dynOk = (.badRequest errs, t, [])) ∧
    (∃ errs, errs ≠ [] ∧
      deleteImageHandler cfg keyD w s3OkD dynOkD =
        (.badRequest errs, w, [])) := by
  refine ⟨?_, ?_, ?_⟩
  · refine ⟨reqStringErrors "fileName" fileName ++
      reqStringErrors "fileType" fileType, ?_, rfl, ?_⟩
    · intro hnil
      rcases List.append_eq_nil.mp hnil with ⟨h1, h2⟩
      rcases hgen with hg | hg
      · exact reqStringErrors_ne_nil hg "fileName" h1
      · exact reqStringErrors_ne_nil hg "fileType" h2
    · unfold generatePresignedUrlHandler
      rw [if_neg]
      intro habs
      rcases List.append_eq_nil.mp (List.isEmpty_iff.mp habs) with ⟨h1, h2⟩
      rcases hgen with hg | hg
      · exact reqStringErrors_ne_nil hg "fileName" h1
      · exact reqStringErrors_ne_nil hg "fileType" h2
  · refine ⟨reqStringErrors "key" b.key, fun hnil =>
      reqStringErrors_ne_nil hsave "key" hnil, ?_⟩
    unfold saveMetadataHandler
    rw [if_neg]
    intro habs
    exact reqStringErrors_ne_nil hsave "key" (List.isEmpty_iff.mp habs)
  · refine ⟨reqStringErrors "key" keyD, fun hnil =>
      reqStringErrors_ne_nil hdel "key" hnil, ?_⟩
    unfold deleteImageHandler
    rw [if_neg]
    intro habs
    exact reqStringErrors_ne_nil hdel "key" (List.isEmpty_iff.mp habs)

/-- C10: the record the metadata recorder persists is built from the
`key`, `caption` and `tags` fields only — any additional properties of the
request body never reach the table (two bodies agreeing on those three
fields produce identical outcomes) — and no operation mutates any other
record: both the metadata write and the delete leave every other key of
the table unchanged. -/
theorem record_fields_closed_and_immutable (cfg : Config) (b1 b2 : SaveBody)
    (hkey : b1.key = b2.key) (hc : b1.caption = b2.caption)
    (ht : b1.tags = b2.tags) (now : Nat) (ip : String) (t : Table)
    (dynOk : Bool) (kd : JsVal) (w : World) (s3OkD dynOkD : Bool)
    (k' : String) (hk1 : k' ≠ b1.key.asString) (hk2 : k' ≠ kd.asString) :
    saveMetadataHandler cfg b1 now ip t dynOk =
      saveMetadataHandler cfg b2 now ip t dynOk ∧
    (saveMetadataHandler cfg b1 now ip t dynOk).2.1 k' = t k' ∧
    (deleteImageHandler cfg kd w s3OkD dynOkD).2.1.table k' = w.table k' := by
  refine ⟨?_, ?_, ?_⟩
  · obtain ⟨kv1, c1, tg1, e1⟩ := b1
    obtain ⟨kv2, c2, tg2, e2⟩ := b2
    simp only at hkey hc ht
    subst hkey
    subst hc
    subst ht
    rfl
  · unfold saveMetadataHandler
    by_cases hv : (reqStringErrors "key" b1.key).isEmpty
    · rw [if_pos hv]
      cases dynOk
      · rfl
      · show (if k' = b1.key.asString then _ else t k') = t k'
        rw [if_neg hk1]
    · rw [if_neg hv]
  · unfold deleteImageHandler
    by_cases hv : (reqStringErrors "key" kd).isEmpty
    · rw [if_pos hv]
      cases s3OkD
      · rfl
      · cases dynOkD
        · rfl
        · show (if k' = kd.asString then none else w.table k') = w.table k'
          rw [if_neg hk2]
    · rw [if_neg hv]

/-! ## Concrete witnesses -/

/-- A concrete stored record used by the witnesses. -/
def sampleRecord : ImageRecord :=
  { imageId := "images/1-sunset.png"
    caption := "Sunset at the Beach"
    tags := ["beach", "sunset"]
    uploadTime := 5
    uploaderId := "127.0.0.1" }

/-- A concrete empty table used by the witnesses. -/
def emptyTable : Table := fun _ => none

/-- A concrete world state used by the witnesses. -/
def sampleWorld : World := ⟨fun _ => true, emptyTable⟩

/-- Witness for C1: concrete non-blank query `"BEACH"` and blank query
`" "` over a one-record table. -/
theorem search_returns_all_or_exact_matches_witness :
    jsTrim "BEACH" ≠ "" ∧ jsTrim " " = "" ∧
    searchImages "buck" "reg" (some "BEACH") [sampleRecord] =
      (List.filter (specSubstringMatch (jsTrim (jsToLower "BEACH")))
        [sampleRecord]).map (toSearchResult "buck" "reg") :=
  ⟨by decide, by decide,
    (search_returns_all_or_exact_matches "buck" "reg" [sampleRecord] "BEACH"
      " " (by decide) (by decide)).2.2⟩

/-- Witness for C2: the issued key for `"cat pic.png"` at a concrete
timestamp. -/
theorem generated_key_format_witness :
    ("cat pic.png" : String) ≠ "" ∧ ("image/png" : String) ≠ "" ∧
    ∃ conds expires,
      (generatePresignedUrlHandler ⟨"buck", "reg", "tab"⟩
          (.str "cat pic.png") (.str "image/png") 1730000000000 none).2 =
        [.s3CreatePresignedPost "buck"
          ("images/" ++ Nat.repr 1730000000000 ++ "-" ++
            sanitizeFileName "cat pic.png") conds expires] :=
  ⟨by decide, by decide,
    (generated_key_format ⟨"buck", "reg", "tab"⟩ "cat pic.png" "image/png"
      (by decide) (by decide) 1730000000000 none).1⟩

/-- Witness for C3: two saves to `"img1"` with different captions; the
second wins. -/
theorem save_metadata_overwrite_witness :
    ("img1" : String) ≠ "" ∧ ("other" : String) ≠ "img1" ∧
    (saveMetadataHandler ⟨"buck", "reg", "tab"⟩
        ⟨.str "img1", some "second", none, []⟩ 2 "ip2"
        ((saveMetadataHandler ⟨"buck", "reg", "tab"⟩
          ⟨.str "img1", some "first", none, []⟩ 1 "ip1" emptyTable
          true).2.1) true).2.1 "img1" =
      some ⟨"img1", "second", [], 2, "ip2"⟩ :=
  ⟨by decide, by decide,
    (save_metadata_overwrite ⟨"buck", "reg", "tab"⟩ "img1" (by decide)
      (some "first") (some "second") none none [] [] 1 2 "ip1" "ip2"
      emptyTable "other" (by decide)).1⟩

/-- Witness for C4: a missing `fileName`, an empty `key` on
`save-metadata`, and a numeric `key` on `delete-image`, shown on the
`save-metadata` conjunct. -/
theorem validation_failure_behavior_witness :
    isValidReqString .undefined = false ∧
    isValidReqString (.str "") = false ∧
    isValidReqString (.num 5) = false ∧
    ∃ errs, errs ≠ [] ∧
      saveMetadataHandler ⟨"buck", "reg", "tab"⟩
        ⟨.str "", some "c", none, []⟩ 7 "ip" emptyTable true =
        (.badRequest errs, emptyTable, []) :=
  ⟨by decide, by decide, by decide,
    (validation_failure_behavior ⟨"buck", "reg", "tab"⟩ .undefined
      (.str "x") 7 none ⟨.str "", some "c", none, []⟩ 7 "ip" emptyTable
      true (.num 5) sampleWorld true true (Or.inl (by decide)) (by decide)
      (by decide)).2.1⟩

/-- Witness for C5: valid key, S3 delete succeeds, DynamoDB delete
fails. -/
theorem delete_order_and_no_rollback_witness :
    ("img1" : String) ≠ "" ∧
    (((deleteImageHandler ⟨"buck", "reg", "tab"⟩ (.str "img1") sampleWorld
        true false).2.2 =
      if true then
        [.s3DeleteObject "buck" "img1", .dynamoDeleteItem "tab" "img1"]
      else [.s3DeleteObject "buck" "img1"]) ∧
     ((true && false) = false →
      (deleteImageHandler ⟨"buck", "reg", "tab"⟩ (.str "img1") sampleWorld
          true false).1.status = 500) ∧
     (true = true → false = false →
      (deleteImageHandler ⟨"buck", "reg", "tab"⟩ (.str "img1") sampleWorld
          true false).2.1.s3Objects "img1" = false ∧
      (deleteImageHandler ⟨"buck", "reg", "tab"⟩ (.str "img1") sampleWorld
          true false).2.1.table "zzz" = sampleWorld.table "zzz")) :=
  ⟨by decide,
    delete_order_and_no_rollback ⟨"buck", "reg", "tab"⟩ "img1" (by decide)
      sampleWorld true false "zzz"⟩

/-- Witness for C6: a valid save with absent caption and supplied tags. -/
theorem save_metadata_record_fields_witness :
    (JsVal.str "img2" : JsVal) = .str "img2" ∧ ("img2" : String) ≠ "" ∧
    ("zzz" : String) ≠ "img2" ∧
    ∃ r : ImageRecord,
      (saveMetadataHandler ⟨"buck", "reg", "tab"⟩
          ⟨.str "img2", none, some ["a"], []⟩ 9 "10.0.0.1" emptyTable
          true).2.1 "img2" = some r ∧
      r.imageId = "img2" ∧
      ((none : Option String) = none → r.caption = "") ∧
      (∀ c, (none : Option String) = some c → r.caption = c) ∧
      ((some ["a"] : Option (List String)) = none → r.tags = []) ∧
      (∀ tgs, (some ["a"] : Option (List String)) = some tgs →
        r.tags = tgs) ∧
      r.uploadTime = 9 ∧ r.uploaderId = "10.0.0.1" ∧
      (saveMetadataHandler ⟨"buck", "reg", "tab"⟩
          ⟨.str "img2", none, some ["a"], []⟩ 9 "10.0.0.1" emptyTable
          true).2.1 "zzz" = emptyTable "zzz" :=
  ⟨rfl, by decide, by decide,
    save_metadata_record_fields ⟨"buck", "reg", "tab"⟩
      ⟨.str "img2", none, some ["a"], []⟩ "img2" rfl (by decide) 9
      "10.0.0.1" emptyTable "zzz" (by decide)⟩

/-- Witness for C7: a concrete result of a concrete filtered search has
the decorated shape. -/
theorem search_result_shape_witness :
    toSearchResult "buck" "reg" sampleRecord ∈
      searchImages "buck" "reg" (some "beach") [sampleRecord] ∧
    ∃ it, it ∈ [sampleRecord] ∧
      toSearchResult "buck" "reg" sampleRecord =
        { key := it.imageId, caption := it.caption, tags := it.tags,
          uploadTime := it.uploadTime,
          presignedGetUrl := "https://" ++ "buck" ++ ".s3." ++ "reg" ++
            ".amazonaws.com/" ++ it.imageId } :=
  ⟨by decide,
    search_result_shape "buck" "reg" (some "beach") [sampleRecord]
      (toSearchResult "buck" "reg" sampleRecord) (by decide)⟩

/-- Witness for C8: the single policy condition at a concrete valid
request. -/
theorem presigned_post_single_constraint_witness :
    ("a b.png" : String) ≠ "" ∧ ("image/png" : String) ≠ "" ∧
    ∃ key conds,
      (generatePresignedUrlHandler ⟨"buck", "reg", "tab"⟩ (.str "a b.png")
          (.str "image/png") 42 (some ⟨"u", []⟩)).2 =
        [.s3CreatePresignedPost "buck" key conds 300] ∧
      conds = [.contentLengthRange 0 10485760] ∧
      ∀ v, PostCondition.contentTypeEq v ∉ conds :=
  ⟨by decide, by decide,
    presigned_post_single_constraint ⟨"buck", "reg", "tab"⟩ "a b.png"
      "image/png" (by decide) (by decide) 42 (some ⟨"u", []⟩)⟩

/-- Witness for C10: two bodies differing only in an extra property
produce the same outcome. -/
theorem record_fields_closed_and_immutable_witness :
    (JsVal.str "img3" : JsVal) = .str "img3" ∧
    (some "c" : Option String) = some "c" ∧
    (some ["t"] : Option (List String)) = some ["t"] ∧
    ("zzz" : String) ≠ (JsVal.str "img3").asString ∧
    ("zzz" : String) ≠ (JsVal.str "img4").asString ∧
    saveMetadataHandler ⟨"buck", "reg", "tab"⟩
        ⟨.str "img3", some "c", some ["t"], [("extra", "1")]⟩ 7 "ip"
        emptyTable true =
      saveMetadataHandler ⟨"buck", "reg", "tab"⟩
        ⟨.str "img3", some "c", some ["t"], []⟩ 7 "ip" emptyTable true :=
  ⟨rfl, rfl, rfl, by decide, by decide,
    (record_fields_closed_and_immutable ⟨"buck", "reg", "tab"⟩
      ⟨.str "img3", some "c", some ["t"], [("extra", "1")]⟩
      ⟨.str "img3", some "c", some ["t"], []⟩ rfl rfl rfl 7 "ip" emptyTable
      true (.str "img4") sampleWorld true true "zzz" (by decide)
      (by decide)).1⟩

end ImageVault
